import Mathlib

/-!
Verification of the Pascal-like lexical scanner in src/python/lexer.py.

The scanner is embedded shallowly: the mutable Python object becomes an
explicit `Lexer` state record, every method becomes a pure function on
that state, and code that can raise becomes `Except PyExn`.  The
character-classification helpers model the CPython string methods on the
ASCII range (all inputs in the claims are ASCII).  Loops are expressed by
structural recursion on an explicit fuel argument instantiated with
`fuelMeasure + 1`, which is always sufficient (each loop iteration calls
`advance`, which strictly decreases `fuelMeasure`); unfolding lemmas below
show each wrapper satisfies exactly the recurrence of the Python loop.
-/

deriving instance DecidableEq for Except

/-- Classes of raised Python exceptions relevant to the lexer.  The module
defines `class LexerError(Error)` but `Lexer.error` raises the builtin
`Exception`; `attributeError` models `None.isdigit()`; `indexError` models
out-of-range string indexing in the constructor.  `outOfFuel` is an
artifact of the fuel embedding and is never produced when the fuel
exceeds `fuelMeasure` (see `gnt_fuel_no_fuel_error`). -/
inductive ExnClass where
  | exceptionClass
  | lexerError
  | attributeError
  | indexError
  | outOfFuel
deriving DecidableEq

/-- A raised Python exception: its class and its message string. -/
structure PyExn where
  cls : ExnClass
  msg : String
deriving DecidableEq

/-- The TokenType enumeration of lexer.py, one constructor per member. -/
inductive TokenType where
  | PLUS
  | MINUS
  | MUL
  | FLOAT_DIV
  | LPAREN
  | RPAREN
  | LBRACE
  | RBRACE
  | SEMI
  | DOT
  | COLON
  | COMMA
  | ASSIGN
  | LESS
  | LESS_EQUAL
  | GREATER
  | GREATER_EQUAL
  | BANG
  | EQUAL
  | BANG_EQUAL
  | PROGRAM
  | INTEGER
  | REAL
  | INTEGER_DIV
  | VAR
  | PROCEDURE
  | BEGIN
  | END
  | IDENT
  | INTEGER_CONST
  | REAL_CONST
  | EOF
deriving DecidableEq

/-- A Python token value: None, an int, a float (kept as its source
lexeme, since no claim depends on float arithmetic), a string, or a
TokenType (new_token substitutes the type for a missing value). -/
inductive Value where
  | noneVal
  | intVal (n : Nat)
  | realVal (lexeme : List Char)
  | strVal (s : String)
  | tyVal (t : TokenType)
deriving DecidableEq

/-- The Token record of lexer.py: type, value, line, col. -/
structure Token where
  type : TokenType
  value : Value
  line : Nat
  col : Nat
deriving DecidableEq

/-- The mutable state of a Lexer object: the input text, the cursor,
the cached current character (None once past the end), and the 1-based
line and column counters. -/
structure Lexer where
  text : List Char
  pos : Nat
  current_char : Option Char
  lineno : Nat
  column : Nat
deriving DecidableEq

/-- The comment-opening character, written via its code point. -/
def lbrace : Char := Char.ofNat 123

/-- The comment-closing character, written via its code point. -/
def rbrace : Char := Char.ofNat 125

/-- A single-quote character, used when building error-message strings. -/
def squote : String := String.mk [Char.ofNat 39]

/-- Python str.isspace on the ASCII range. -/
def pyIsSpace (c : Char) : Bool :=
  c == ' ' || c == '\t' || c == '\n' || c == '\r' || c == '\x0b' || c == '\x0c'

/-- Python str.isdigit on the ASCII range. -/
def pyIsDigit (c : Char) : Bool :=
  '0' ≤ c && c ≤ '9'

/-- Python str.isalpha on the ASCII range: letters only.  This is the
builtin method that `Lexer.identifier` calls on `current_char`. -/
def pyStrIsAlpha (c : Char) : Bool :=
  ('a' ≤ c && c ≤ 'z') || ('A' ≤ c && c ≤ 'Z')

/-- Python str.isalnum on the ASCII range. -/
def pyIsAlnum (c : Char) : Bool :=
  pyStrIsAlpha c || pyIsDigit c

/-- The method Lexer.isalpha of lexer.py: ch.isalnum() or ch == an
underscore.  Note this differs from the builtin str.isalpha used inside
Lexer.identifier. -/
def Lexer.isalpha (ch : Char) : Bool :=
  pyIsAlnum ch || ch == '_'

/-- int() applied to a (nonempty) decimal digit string. -/
def pyInt (ds : List Char) : Nat :=
  ds.foldl (fun a c => a * 10 + (c.toNat - 48)) 0

/-- The reserved_keywords dictionary built in Lexer.__init__, as the
lookup `reserved_keywords.get(s, TokenType.IDENT)`: case-sensitive exact
match. -/
def reserved_keywords (s : String) : TokenType :=
  if s = "PROGRAM" then TokenType.PROGRAM
  else if s = "INTEGER" then TokenType.INTEGER
  else if s = "REAL" then TokenType.REAL
  else if s = "DIV" then TokenType.INTEGER_DIV
  else if s = "VAR" then TokenType.VAR
  else if s = "PROCEDURE" then TokenType.PROCEDURE
  else if s = "BEGIN" then TokenType.BEGIN
  else if s = "END" then TokenType.END
  else TokenType.IDENT

/-- Lexer.__init__: pos = 0, current_char = text[0] (an IndexError when
the text is empty), lineno = 1, column = 1. -/
def Lexer.init (text : List Char) : Except PyExn Lexer :=
  match text.get? 0 with
  | some c => .ok ⟨text, 0, some c, 1, 1⟩
  | none => .error ⟨.indexError, "string index out of range"⟩

/-- str() of the current character as interpolated by Lexer.error:
a character prints as itself, Python None prints as the text None. -/
def lexemeStr : Option Char → String
  | some c => String.mk [c]
  | none => "None"

/-- The message built by Lexer.error from the current state. -/
def Lexer.errorMsg (l : Lexer) : String :=
  "Lexer error on " ++ squote ++ lexemeStr l.current_char ++ squote ++
    " line: " ++ toString l.lineno ++ " column: " ++ toString l.column

/-- Lexer.advance: increment pos; current_char becomes None once
pos > len(text) - 1, else text[pos]; then, if the NEW current character
is a newline, increment lineno and reset column to 1.  The column is
never incremented and the consumed character is never inspected. -/
def Lexer.advance (l : Lexer) : Lexer :=
  let cc := if l.text.length ≤ l.pos + 1 then none else l.text.get? (l.pos + 1)
  if cc = some '\n' then
    { l with pos := l.pos + 1, current_char := cc, lineno := l.lineno + 1, column := 1 }
  else
    { l with pos := l.pos + 1, current_char := cc }

/-- Lexer.peek: the character after the cursor, or None. -/
def Lexer.peek (l : Lexer) : Option Char :=
  if l.text.length ≤ l.pos + 1 then none else l.text.get? (l.pos + 1)

/-- Fuel bound for the scanning loops: an upper bound (plus one) on how
many times `advance` can still be applied before `current_char` is None
and stays None. -/
def Lexer.fuelMeasure (l : Lexer) : Nat :=
  l.text.length + 1 - l.pos + (if l.current_char.isSome then 1 else 0)

/-- The loop of Lexer.skip_whitespace, on explicit fuel. -/
def sw_fuel : Nat → Lexer → Lexer
  | 0, l => l
  | n + 1, l =>
    match l.current_char with
    | some c => if pyIsSpace c then sw_fuel n l.advance else l
    | none => l

/-- Lexer.skip_whitespace: advance while the current character is
whitespace. -/
def Lexer.skip_whitespace (l : Lexer) : Lexer :=
  sw_fuel (l.fuelMeasure + 1) l

/-- The loop of Lexer.skip_comments, on explicit fuel: advance while the
current character is neither None nor the closing brace. -/
def cl_fuel : Nat → Lexer → Lexer
  | 0, l => l
  | n + 1, l =>
    match l.current_char with
    | some c => if c = rbrace then l else cl_fuel n l.advance
    | none => l

/-- The while-loop portion of Lexer.skip_comments. -/
def Lexer.comment_loop (l : Lexer) : Lexer :=
  cl_fuel (l.fuelMeasure + 1) l

/-- Lexer.new_token: when the value argument is None it is replaced by
the token type itself; line and col are the current counters. -/
def Lexer.new_token (l : Lexer) (type : TokenType) (value : Value) : Token :=
  let value2 := if value = Value.noneVal then Value.tyVal type else value
  ⟨type, value2, l.lineno, l.column⟩

/-- Lexer.skip_comments: loop to the closing brace; raise the formatted
error (a builtin Exception) if end of input is reached first; otherwise
consume the closing brace. -/
def Lexer.skip_comments (l : Lexer) : Except PyExn Lexer :=
  let l1 := l.comment_loop
  match l1.current_char with
  | none => .error ⟨.exceptionClass, l1.errorMsg⟩
  | some _ => .ok l1.advance

/-- The digit-accumulation loop of Lexer.number, on explicit fuel. -/
def dl_fuel : Nat → Lexer → List Char → List Char × Lexer
  | 0, l, acc => (acc, l)
  | n + 1, l, acc =>
    match l.current_char with
    | some c => if pyIsDigit c then dl_fuel n l.advance (acc ++ [c]) else (acc, l)
    | none => (acc, l)

/-- A digit-accumulation loop of Lexer.number. -/
def Lexer.digits_loop (l : Lexer) (acc : List Char) : List Char × Lexer :=
  dl_fuel (l.fuelMeasure + 1) l acc

/-- The message of the AttributeError raised by `None.isdigit()`. -/
def attrMsg : String :=
  squote ++ "NoneType" ++ squote ++ " object has no attribute " ++
    squote ++ "isdigit" ++ squote

/-- Lexer.number: accumulate digits; then, if the current character is a
dot, evaluate `peek().isdigit()` - an AttributeError when peek() is None;
when the peeked character is a digit, consume the dot and further digits
into a REAL_CONST, else produce an INTEGER_CONST. -/
def Lexer.number (l : Lexer) : Except PyExn (Token × Lexer) :=
  let r1 := l.digits_loop []
  let result := r1.1
  let l1 := r1.2
  if l1.current_char = some '.' then
    match l1.peek with
    | none => .error ⟨.attributeError, attrMsg⟩
    | some d =>
      if pyIsDigit d then
        let l2 := l1.advance
        let r2 := l2.digits_loop (result ++ ['.'])
        .ok (r2.2.new_token .REAL_CONST (.realVal r2.1), r2.2)
      else
        .ok (l1.new_token .INTEGER_CONST (.intVal (pyInt result)), l1)
  else
    .ok (l1.new_token .INTEGER_CONST (.intVal (pyInt result)), l1)

/-- The accumulation loop of Lexer.identifier, on explicit fuel.  The
loop condition is `current_char.isalpha()`, the BUILTIN str.isalpha
(letters only), not the Lexer.isalpha method used by the dispatcher. -/
def il_fuel : Nat → Lexer → List Char → List Char × Lexer
  | 0, l, acc => (acc, l)
  | n + 1, l, acc =>
    match l.current_char with
    | some c => if pyStrIsAlpha c then il_fuel n l.advance (acc ++ [c]) else (acc, l)
    | none => (acc, l)

/-- The accumulation loop of Lexer.identifier. -/
def Lexer.ident_loop (l : Lexer) (acc : List Char) : List Char × Lexer :=
  il_fuel (l.fuelMeasure + 1) l acc

/-- Lexer.identifier: accumulate characters, look the lexeme up in the
reserved-keyword table, and build the token with the lexeme as value. -/
def Lexer.identifier (l : Lexer) : Token × Lexer :=
  let r := l.ident_loop []
  let token_type := reserved_keywords (String.mk r.1)
  (r.2.new_token token_type (.strVal (String.mk r.1)), r.2)

/-- A single-character operator branch of get_next_token:
`self.advance(); return self.new_token(t)`. -/
def advTok (l : Lexer) (t : TokenType) : Except PyExn (Token × Lexer) :=
  let l2 := l.advance
  .ok (l2.new_token t .noneVal, l2)

/-- A two-character operator branch of get_next_token: advance, then if
the (new) current character is an equals sign advance again and emit the
compound kind, else emit the single kind. -/
def twoChar (l : Lexer) (compound single : TokenType) : Except PyExn (Token × Lexer) :=
  let l2 := l.advance
  if l2.current_char = some '=' then
    let l3 := l2.advance
    .ok (l3.new_token compound .noneVal, l3)
  else
    .ok (l2.new_token single .noneVal, l2)

/-- The returning branches of the while-loop of Lexer.get_next_token,
for a current character c that is neither whitespace nor the
comment-opening brace: digits, identifier characters, then each
operator and punctuation rule in source order, and finally Lexer.error
(raising a builtin Exception) when nothing matches. -/
def op_dispatch (l : Lexer) (c : Char) : Except PyExn (Token × Lexer) :=
  if pyIsDigit c then l.number
  else if Lexer.isalpha c then .ok l.identifier
  else if c = '+' then advTok l .PLUS
  else if c = '-' then advTok l .MINUS
  else if c = '*' then advTok l .MUL
  else if c = '/' then advTok l .FLOAT_DIV
  else if c = '(' then advTok l .LPAREN
  else if c = ')' then advTok l .RPAREN
  else if c = ';' then advTok l .SEMI
  else if c = '.' then advTok l .DOT
  else if c = ':' then
    if l.peek = some '=' then
      let l2 := l.advance.advance
      .ok (l2.new_token .ASSIGN .noneVal, l2)
    else advTok l .COLON
  else if c = ',' then advTok l .COMMA
  else if c = '<' then twoChar l .LESS_EQUAL .LESS
  else if c = '>' then twoChar l .GREATER_EQUAL .GREATER
  else if c = '!' then twoChar l .BANG_EQUAL .BANG
  else .error ⟨.exceptionClass, l.errorMsg⟩

/-- Lexer.get_next_token on explicit fuel: one fuel unit per iteration of
the outer while-loop (each iteration strictly shrinks `fuelMeasure`, so
the fuel of the wrapper below never runs out).  The loop continues after
skipping whitespace or a comment and otherwise returns via op_dispatch;
with no current character it returns the EOF token, built by
Token(TokenType.EOF, None) with default line 0 and col 0. -/
def gnt_fuel : Nat → Lexer → Except PyExn (Token × Lexer)
  | 0, _ => .error ⟨.outOfFuel, "fuel exhausted"⟩
  | n + 1, l =>
    match l.current_char with
    | none => .ok (⟨.EOF, .noneVal, 0, 0⟩, l)
    | some c =>
      if pyIsSpace c then gnt_fuel n l.skip_whitespace
      else if c = lbrace then
        match l.skip_comments with
        | .error e => .error e
        | .ok l2 => gnt_fuel n l2
      else op_dispatch l c

/-- Lexer.get_next_token. -/
def Lexer.get_next_token (l : Lexer) : Except PyExn (Token × Lexer) :=
  gnt_fuel (l.fuelMeasure + 1) l

/-- The n-th successive call of get_next_token from a state (0-indexed),
threading the state as the driver in main() does. -/
def nth_token (l : Lexer) : Nat → Except PyExn (Token × Lexer)
  | 0 => l.get_next_token
  | n + 1 =>
    match l.get_next_token with
    | .error e => .error e
    | .ok (_, l2) => nth_token l2 n

/-- Construct a lexer from text and return the token of the (n+1)-th
call of get_next_token, propagating any raised exception. -/
def scanNth (text : List Char) (n : Nat) : Except PyExn Token :=
  match Lexer.init text with
  | .error e => .error e
  | .ok l => Except.map Prod.fst (nth_token l n)

/-- advance leaves the text unchanged. -/
theorem advance_text (l : Lexer) : l.advance.text = l.text := by
  simp only [Lexer.advance]
  split <;> split <;> rfl

/-- advance always increments pos by one. -/
theorem advance_pos (l : Lexer) : l.advance.pos = l.pos + 1 := by
  simp only [Lexer.advance]
  split <;> split <;> rfl

/-- The current character cached by advance. -/
theorem advance_current_char (l : Lexer) :
    l.advance.current_char =
      if l.text.length ≤ l.pos + 1 then none else l.text.get? (l.pos + 1) := by
  simp only [Lexer.advance]
  split <;> split <;> rfl

/-- Advancing from a state that still has a current character strictly
shrinks the fuel bound. -/
theorem advance_fm_lt (l : Lexer) (h : l.current_char.isSome = true) :
    l.advance.fuelMeasure < l.fuelMeasure := by
  unfold Lexer.fuelMeasure
  rw [advance_text, advance_pos, advance_current_char, if_pos h]
  by_cases hlen : l.text.length ≤ l.pos + 1
  · rw [if_pos hlen]
    simp only [Option.isSome_none, Bool.false_eq_true, if_false]
    omega
  · rw [if_neg hlen]
    rcases hg : l.text.get? (l.pos + 1) with _ | c
    · rw [List.get?_eq_none] at hg
      omega
    · simp only [hg, Option.isSome_some, if_true]
      omega

/-- The whitespace loop never grows the fuel bound. -/
theorem sw_fuel_fm_le : ∀ (n : Nat) (l : Lexer), (sw_fuel n l).fuelMeasure ≤ l.fuelMeasure := by
  intro n
  induction n with
  | zero => intro l; exact le_refl _
  | succ n ih =>
    intro l
    rcases hc : l.current_char with _ | c
    · simp only [sw_fuel, hc]
      exact le_refl _
    · simp only [sw_fuel, hc]
      by_cases hs : pyIsSpace c = true
      · rw [if_pos hs]
        exact le_trans (ih l.advance) (le_of_lt (advance_fm_lt l (by rw [hc]; rfl)))
      · rw [if_neg hs]

/-- Entering skip_whitespace on a whitespace character strictly shrinks
the fuel bound. -/
theorem skip_whitespace_fm_lt (l : Lexer) (c : Char) (hc : l.current_char = some c)
    (hs : pyIsSpace c = true) : l.skip_whitespace.fuelMeasure < l.fuelMeasure := by
  unfold Lexer.skip_whitespace
  simp only [sw_fuel, hc, hs, if_true]
  exact lt_of_le_of_lt (sw_fuel_fm_le _ _) (advance_fm_lt l (by rw [hc]; rfl))

/-- The comment loop never grows the fuel bound. -/
theorem cl_fuel_fm_le : ∀ (n : Nat) (l : Lexer), (cl_fuel n l).fuelMeasure ≤ l.fuelMeasure := by
  intro n
  induction n with
  | zero => intro l; exact le_refl _
  | succ n ih =>
    intro l
    rcases hc : l.current_char with _ | c
    · simp only [cl_fuel, hc]
      exact le_refl _
    · simp only [cl_fuel, hc]
      by_cases hr : c = rbrace
      · rw [if_pos hr]
      · rw [if_neg hr]
        exact le_trans (ih l.advance) (le_of_lt (advance_fm_lt l (by rw [hc]; rfl)))

/-- A successful skip_comments strictly shrinks the fuel bound (it
always consumes the closing brace). -/
theorem skip_comments_ok_fm_lt (l l2 : Lexer) (h : l.skip_comments = .ok l2) :
    l2.fuelMeasure < l.fuelMeasure := by
  unfold Lexer.skip_comments at h
  rcases hc : l.comment_loop.current_char with _ | c
  · simp only [hc] at h
    exact absurd h (by simp)
  · simp only [hc] at h
    injection h with h2
    rw [← h2]
    refine lt_of_lt_of_le (advance_fm_lt _ (by rw [hc]; rfl)) ?_
    unfold Lexer.comment_loop
    exact cl_fuel_fm_le _ _

/-- new_token always carries the requested token type. -/
theorem new_token_type (l : Lexer) (ty : TokenType) (v : Value) :
    (l.new_token ty v).type = ty := by
  simp only [Lexer.new_token]

/-- The only keyword kinds and IDENT come out of the reserved-word
lookup; EOF never does. -/
theorem reserved_keywords_ne_eof (s : String) : reserved_keywords s ≠ .EOF := by
  unfold reserved_keywords
  split_ifs <;> decide

/-- identifier never produces an EOF-typed token. -/
theorem identifier_type_ne_eof (l : Lexer) : (l.identifier).1.type ≠ .EOF := by
  simp only [Lexer.identifier]
  rw [new_token_type]
  exact reserved_keywords_ne_eof _

/-- number only fails with the AttributeError of None.isdigit. -/
theorem number_error_cls (l : Lexer) (e : PyExn) (h : l.number = .error e) :
    e.cls = .attributeError := by
  simp only [Lexer.number] at h
  split at h
  · split at h
    · injection h with h2
      rw [← h2]
    · split at h <;> simp at h
  · simp at h

/-- number produces only integer or real literal tokens. -/
theorem number_ok_type (l : Lexer) (t : Token) (l' : Lexer) (h : l.number = .ok (t, l')) :
    t.type = .INTEGER_CONST ∨ t.type = .REAL_CONST := by
  simp only [Lexer.number] at h
  split at h
  · split at h
    · simp at h
    · split at h
      · simp only [Except.ok.injEq, Prod.mk.injEq] at h
        right
        rw [← h.1, new_token_type]
      · simp only [Except.ok.injEq, Prod.mk.injEq] at h
        left
        rw [← h.1, new_token_type]
  · simp only [Except.ok.injEq, Prod.mk.injEq] at h
    left
    rw [← h.1, new_token_type]

/-- skip_comments only fails with the formatted lexer error, a builtin
Exception. -/
theorem skip_comments_error_cls (l : Lexer) (e : PyExn) (h : l.skip_comments = .error e) :
    e.cls = .exceptionClass := by
  unfold Lexer.skip_comments at h
  rcases hc : l.comment_loop.current_char with _ | c
  · simp only [hc] at h
    injection h with h2
    rw [← h2]
  · simp only [hc] at h
    exact absurd h (by simp)

/-- The token of a single-character operator branch has its kind. -/
theorem advTok_type (l : Lexer) (ty : TokenType) (t : Token) (l' : Lexer)
    (h : advTok l ty = .ok (t, l')) : t.type = ty := by
  simp only [advTok, Except.ok.injEq, Prod.mk.injEq] at h
  rw [← h.1, new_token_type]

/-- The token of a two-character operator branch has one of its two
kinds. -/
theorem twoChar_type (l : Lexer) (a b : TokenType) (t : Token) (l' : Lexer)
    (h : twoChar l a b = .ok (t, l')) : t.type = a ∨ t.type = b := by
  simp only [twoChar] at h
  split at h
  · simp only [Except.ok.injEq, Prod.mk.injEq] at h
    left
    rw [← h.1, new_token_type]
  · simp only [Except.ok.injEq, Prod.mk.injEq] at h
    right
    rw [← h.1, new_token_type]

/-- Inversion for the returning branches: a token they produce is never
EOF-typed, and an exception they raise is the AttributeError of number
or the builtin Exception of Lexer.error. -/
theorem op_dispatch_inv (l : Lexer) (c : Char) :
    (∀ (t : Token) (l' : Lexer), op_dispatch l c = .ok (t, l') → t.type ≠ .EOF) ∧
    (∀ e : PyExn, op_dispatch l c = .error e →
      e.cls = .attributeError ∨ e.cls = .exceptionClass) := by
  unfold op_dispatch
  by_cases g1 : pyIsDigit c = true
  · rw [if_pos g1]
    constructor
    · intro t l' h
      rcases number_ok_type _ _ _ h with h2 | h2 <;> rw [h2] <;> decide
    · intro e h
      left
      exact number_error_cls _ _ h
  · rw [if_neg g1]
    by_cases g2 : Lexer.isalpha c = true
    · rw [if_pos g2]
      constructor
      · intro t l' h
        simp only [Except.ok.injEq] at h
        have h3 := identifier_type_ne_eof l
        rw [h] at h3
        exact h3
      · intro e h
        exact absurd h (by simp)
    · rw [if_neg g2]
      by_cases g3 : c = '+'
      · rw [if_pos g3]
        constructor
        · intro t l' h
          rw [advTok_type _ _ _ _ h]
          decide
        · intro e h
          exact absurd h (by simp [advTok])
      · rw [if_neg g3]
        by_cases g4 : c = '-'
        · rw [if_pos g4]
          constructor
          · intro t l' h
            rw [advTok_type _ _ _ _ h]
            decide
          · intro e h
            exact absurd h (by simp [advTok])
        · rw [if_neg g4]
          by_cases g5 : c = '*'
          · rw [if_pos g5]
            constructor
            · intro t l' h
              rw [advTok_type _ _ _ _ h]
              decide
            · intro e h
              exact absurd h (by simp [advTok])
          · rw [if_neg g5]
            by_cases g6 : c = '/'
            · rw [if_pos g6]
              constructor
              · intro t l' h
                rw [advTok_type _ _ _ _ h]
                decide
              · intro e h
                exact absurd h (by simp [advTok])
            · rw [if_neg g6]
              by_cases g7 : c = '('
              · rw [if_pos g7]
                constructor
                · intro t l' h
                  rw [advTok_type _ _ _ _ h]
                  decide
                · intro e h
                  exact absurd h (by simp [advTok])
              · rw [if_neg g7]
                by_cases g8 : c = ')'
                · rw [if_pos g8]
                  constructor
                  · intro t l' h
                    rw [advTok_type _ _ _ _ h]
                    decide
                  · intro e h
                    exact absurd h (by simp [advTok])
                · rw [if_neg g8]
                  by_cases g9 : c = ';'
                  · rw [if_pos g9]
                    constructor
                    · intro t l' h
                      rw [advTok_type _ _ _ _ h]
                      decide
                    · intro e h
                      exact absurd h (by simp [advTok])
                  · rw [if_neg g9]
                    by_cases g10 : c = '.'
                    · rw [if_pos g10]
                      constructor
                      · intro t l' h
                        rw [advTok_type _ _ _ _ h]
                        decide
                      · intro e h
                        exact absurd h (by simp [advTok])
                    · rw [if_neg g10]
                      by_cases g11 : c = ':'
                      · rw [if_pos g11]
                        by_cases gp : l.peek = some '='
                        · rw [if_pos gp]
                          constructor
                          · intro t l' h
                            simp only [Except.ok.injEq, Prod.mk.injEq] at h
                            rw [← h.1, new_token_type]
                            decide
                          · intro e h
                            exact absurd h (by simp)
                        · rw [if_neg gp]
                          constructor
                          · intro t l' h
                            rw [advTok_type _ _ _ _ h]
                            decide
                          · intro e h
                            exact absurd h (by simp [advTok])
                      · rw [if_neg g11]
                        by_cases g12 : c = ','
                        · rw [if_pos g12]
                          constructor
                          · intro t l' h
                            rw [advTok_type _ _ _ _ h]
                            decide
                          · intro e h
                            exact absurd h (by simp [advTok])
                        · rw [if_neg g12]
                          by_cases g13 : c = '<'
                          · rw [if_pos g13]
                            constructor
                            · intro t l' h
                              rcases twoChar_type _ _ _ _ _ h with h2 | h2 <;> rw [h2] <;> decide
                            · intro e h
                              simp only [twoChar] at h
                              split at h <;> simp at h
                          · rw [if_neg g13]
                            by_cases g14 : c = '>'
                            · rw [if_pos g14]
                              constructor
                              · intro t l' h
                                rcases twoChar_type _ _ _ _ _ h with h2 | h2 <;> rw [h2] <;> decide
                              · intro e h
                                simp only [twoChar] at h
                                split at h <;> simp at h
                            · rw [if_neg g14]
                              by_cases g15 : c = '!'
                              · rw [if_pos g15]
                                constructor
                                · intro t l' h
                                  rcases twoChar_type _ _ _ _ _ h with h2 | h2 <;> rw [h2] <;> decide
                                · intro e h
                                  simp only [twoChar] at h
                                  split at h <;> simp at h
                              · rw [if_neg g15]
                                constructor
                                · intro t l' h
                                  exact absurd h (by simp)
                                · intro e h
                                  right
                                  injection h with h2
                                  rw [← h2]

/-- When get_next_token returns a token of type EOF, the resulting state
has no current character: EOF comes only out of the final return of the
dispatch loop. -/
theorem gnt_ok_eof : ∀ (n : Nat) (l : Lexer) (t : Token) (l' : Lexer),
    gnt_fuel n l = .ok (t, l') → t.type = .EOF → l'.current_char = none := by
  intro n
  induction n with
  | zero =>
    intro l t l' h ht
    simp [gnt_fuel] at h
  | succ n ih =>
    intro l t l' h ht
    rcases hc : l.current_char with _ | c
    · rw [gnt_fuel.eq_2] at h
      simp only [hc, Except.ok.injEq, Prod.mk.injEq] at h
      rw [← h.2]
      exact hc
    · rw [gnt_fuel.eq_2] at h
      simp only [hc] at h
      by_cases hs : pyIsSpace c = true
      · rw [if_pos hs] at h
        exact ih _ _ _ h ht
      · rw [if_neg hs] at h
        by_cases hb : c = lbrace
        · rw [if_pos hb] at h
          rcases hsc : l.skip_comments with e2 | l2
          · simp only [hsc] at h
            exact absurd h (by simp)
          · simp only [hsc] at h
            exact ih _ _ _ h ht
        · rw [if_neg hb] at h
          exact absurd ht ((op_dispatch_inv l c).1 _ _ h)

/-- A state with no current character yields the EOF token and is left
unchanged. -/
theorem cc_none_get_next_token (l : Lexer) (h : l.current_char = none) :
    l.get_next_token = .ok (⟨.EOF, .noneVal, 0, 0⟩, l) := by
  unfold Lexer.get_next_token
  rw [gnt_fuel.eq_2]
  simp only [h]

/-- get_next_token: once EOF is returned the state has no current
character at all later calls, so every later call returns EOF with the
state unchanged. -/
theorem nth_token_eof_stable (l : Lexer) (h : l.current_char = none) :
    ∀ n : Nat, nth_token l n = .ok (⟨.EOF, .noneVal, 0, 0⟩, l) := by
  intro n
  induction n with
  | zero =>
    simp only [nth_token]
    exact cc_none_get_next_token l h
  | succ n ih =>
    simp only [nth_token]
    rw [cc_none_get_next_token l h]
    exact ih

/-- get_next_token wrapper form of gnt_ok_eof. -/
theorem get_next_token_ok_eof (l : Lexer) (t : Token) (l' : Lexer)
    (h : l.get_next_token = .ok (t, l')) (ht : t.type = .EOF) : l'.current_char = none :=
  gnt_ok_eof _ l t l' h ht

/-- On a state whose current character is an underscore, get_next_token
dispatches to identifier (the Lexer.isalpha test accepts the
underscore), but the accumulation loop uses the builtin str.isalpha,
which rejects it: the result is an IDENT token with empty value and an
unchanged state. -/
theorem underscore_step (l : Lexer) (h : l.current_char = some '_') :
    l.get_next_token = .ok (⟨.IDENT, .strVal "", l.lineno, l.column⟩, l) := by
  unfold Lexer.get_next_token
  rw [gnt_fuel.eq_2]
  simp only [h]
  rw [if_neg (by decide), if_neg (by decide)]
  unfold op_dispatch
  rw [if_neg (by decide), if_pos (by decide)]
  unfold Lexer.identifier Lexer.ident_loop
  rw [il_fuel.eq_2]
  simp only [h]
  rw [if_neg (by decide)]
  rfl

/-- Repeated calls on an underscore state keep returning the same empty
IDENT token and never move. -/
theorem underscore_nth (l : Lexer) (h : l.current_char = some '_') :
    ∀ n : Nat, nth_token l n = .ok (⟨.IDENT, .strVal "", l.lineno, l.column⟩, l) := by
  intro n
  induction n with
  | zero =>
    simp only [nth_token]
    exact underscore_step l h
  | succ n ih =>
    simp only [nth_token]
    rw [underscore_step l h]
    exact ih

/-- Fuel sufficiency: with fuel exceeding fuelMeasure, gnt_fuel never
reports fuel exhaustion, so the wrapper get_next_token computes the
value of the Python loop. -/
theorem gnt_fuel_no_fuel_error : ∀ (n : Nat) (l : Lexer), l.fuelMeasure < n →
    ∀ e : PyExn, gnt_fuel n l = .error e → e.cls ≠ .outOfFuel := by
  intro n
  induction n with
  | zero =>
    intro l hn
    omega
  | succ n ih =>
    intro l hn e h
    rcases hc : l.current_char with _ | c
    · rw [gnt_fuel.eq_2] at h
      simp [hc] at h
    · rw [gnt_fuel.eq_2] at h
      simp only [hc] at h
      by_cases hs : pyIsSpace c = true
      · rw [if_pos hs] at h
        have hlt := skip_whitespace_fm_lt l c hc hs
        exact ih _ (by omega) e h
      · rw [if_neg hs] at h
        by_cases hb : c = lbrace
        · rw [if_pos hb] at h
          rcases hsc : l.skip_comments with e2 | l2
          · simp only [hsc] at h
            injection h with h2
            rw [← h2]
            rw [skip_comments_error_cls l e2 hsc]
            decide
          · simp only [hsc] at h
            have hlt := skip_comments_ok_fm_lt l l2 hsc
            exact ih _ (by omega) e h
        · rw [if_neg hb] at h
          rcases (op_dispatch_inv l c).2 e h with h2 | h2 <;> rw [h2] <;> decide

/-- The whitespace loop does not depend on the fuel once the fuel
exceeds the measure. -/
theorem sw_fuel_irrel : ∀ (n m : Nat) (l : Lexer), l.fuelMeasure < n →
    l.fuelMeasure < m → sw_fuel n l = sw_fuel m l := by
  intro n
  induction n with
  | zero =>
    intro m l h1 h2
    omega
  | succ n ih =>
    intro m l h1 h2
    rcases m with _ | m
    · omega
    · simp only [sw_fuel.eq_2]
      rcases hc : l.current_char with _ | c
      · rfl
      · dsimp only
        by_cases hs : pyIsSpace c = true
        · rw [if_pos hs, if_pos hs]
          have hlt := advance_fm_lt l (by rw [hc]; rfl)
          exact ih m l.advance (by omega) (by omega)
        · rw [if_neg hs, if_neg hs]

/-- skip_whitespace satisfies the recurrence of the Python while-loop:
advance and loop while the current character is whitespace. -/
theorem skip_whitespace_eq (l : Lexer) :
    l.skip_whitespace =
      match l.current_char with
      | some c => if pyIsSpace c then l.advance.skip_whitespace else l
      | none => l := by
  unfold Lexer.skip_whitespace
  rw [sw_fuel.eq_2]
  rcases hc : l.current_char with _ | c
  · rfl
  · dsimp only
    by_cases hs : pyIsSpace c = true
    · rw [if_pos hs, if_pos hs]
      have hlt := advance_fm_lt l (by rw [hc]; rfl)
      exact sw_fuel_irrel _ _ _ (by omega) (by omega)
    · rw [if_neg hs, if_neg hs]

/-- The comment loop does not depend on the fuel once the fuel exceeds
the measure. -/
theorem cl_fuel_irrel : ∀ (n m : Nat) (l : Lexer), l.fuelMeasure < n →
    l.fuelMeasure < m → cl_fuel n l = cl_fuel m l := by
  intro n
  induction n with
  | zero =>
    intro m l h1 h2
    omega
  | succ n ih =>
    intro m l h1 h2
    rcases m with _ | m
    · omega
    · simp only [cl_fuel.eq_2]
      rcases hc : l.current_char with _ | c
      · rfl
      · dsimp only
        by_cases hr : c = rbrace
        · rw [if_pos hr, if_pos hr]
        · rw [if_neg hr, if_neg hr]
          have hlt := advance_fm_lt l (by rw [hc]; rfl)
          exact ih m l.advance (by omega) (by omega)

/-- comment_loop satisfies the recurrence of the while-loop of
skip_comments: advance while the current character is neither None nor
the closing brace. -/
theorem comment_loop_eq (l : Lexer) :
    l.comment_loop =
      match l.current_char with
      | some c => if c = rbrace then l else l.advance.comment_loop
      | none => l := by
  unfold Lexer.comment_loop
  rw [cl_fuel.eq_2]
  rcases hc : l.current_char with _ | c
  · rfl
  · dsimp only
    by_cases hr : c = rbrace
    · rw [if_pos hr, if_pos hr]
    · rw [if_neg hr, if_neg hr]
      have hlt := advance_fm_lt l (by rw [hc]; rfl)
      exact cl_fuel_irrel _ _ _ (by omega) (by omega)

/-- The digit loop does not depend on the fuel once the fuel exceeds
the measure. -/
theorem dl_fuel_irrel : ∀ (n m : Nat) (l : Lexer) (acc : List Char), l.fuelMeasure < n →
    l.fuelMeasure < m → dl_fuel n l acc = dl_fuel m l acc := by
  intro n
  induction n with
  | zero =>
    intro m l acc h1 h2
    omega
  | succ n ih =>
    intro m l acc h1 h2
    rcases m with _ | m
    · omega
    · simp only [dl_fuel.eq_2]
      rcases hc : l.current_char with _ | c
      · rfl
      · dsimp only
        by_cases hd : pyIsDigit c = true
        · rw [if_pos hd, if_pos hd]
          have hlt := advance_fm_lt l (by rw [hc]; rfl)
          exact ih m l.advance (acc ++ [c]) (by omega) (by omega)
        · rw [if_neg hd, if_neg hd]

/-- digits_loop satisfies the recurrence of the digit-accumulation
while-loop of number. -/
theorem digits_loop_eq (l : Lexer) (acc : List Char) :
    l.digits_loop acc =
      match l.current_char with
      | some c => if pyIsDigit c then l.advance.digits_loop (acc ++ [c]) else (acc, l)
      | none => (acc, l) := by
  unfold Lexer.digits_loop
  rw [dl_fuel.eq_2]
  rcases hc : l.current_char with _ | c
  · rfl
  · dsimp only
    by_cases hd : pyIsDigit c = true
    · rw [if_pos hd, if_pos hd]
      have hlt := advance_fm_lt l (by rw [hc]; rfl)
      exact dl_fuel_irrel _ _ _ _ (by omega) (by omega)
    · rw [if_neg hd, if_neg hd]

/-- The identifier loop does not depend on the fuel once the fuel
exceeds the measure. -/
theorem il_fuel_irrel : ∀ (n m : Nat) (l : Lexer) (acc : List Char), l.fuelMeasure < n →
    l.fuelMeasure < m → il_fuel n l acc = il_fuel m l acc := by
  intro n
  induction n with
  | zero =>
    intro m l acc h1 h2
    omega
  | succ n ih =>
    intro m l acc h1 h2
    rcases m with _ | m
    · omega
    · simp only [il_fuel.eq_2]
      rcases hc : l.current_char with _ | c
      · rfl
      · dsimp only
        by_cases ha : pyStrIsAlpha c = true
        · rw [if_pos ha, if_pos ha]
          have hlt := advance_fm_lt l (by rw [hc]; rfl)
          exact ih m l.advance (acc ++ [c]) (by omega) (by omega)
        · rw [if_neg ha, if_neg ha]

/-- ident_loop satisfies the recurrence of the accumulation while-loop
of identifier, whose test is the builtin str.isalpha. -/
theorem ident_loop_eq (l : Lexer) (acc : List Char) :
    l.ident_loop acc =
      match l.current_char with
      | some c => if pyStrIsAlpha c then l.advance.ident_loop (acc ++ [c]) else (acc, l)
      | none => (acc, l) := by
  unfold Lexer.ident_loop
  rw [il_fuel.eq_2]
  rcases hc : l.current_char with _ | c
  · rfl
  · dsimp only
    by_cases ha : pyStrIsAlpha c = true
    · rw [if_pos ha, if_pos ha]
      have hlt := advance_fm_lt l (by rw [hc]; rfl)
      exact il_fuel_irrel _ _ _ _ (by omega) (by omega)
    · rw [if_neg ha, if_neg ha]

/-- get_next_token does not depend on the fuel once the fuel exceeds
the measure. -/
theorem gnt_fuel_irrel : ∀ (n m : Nat) (l : Lexer), l.fuelMeasure < n →
    l.fuelMeasure < m → gnt_fuel n l = gnt_fuel m l := by
  intro n
  induction n with
  | zero =>
    intro m l h1 h2
    omega
  | succ n ih =>
    intro m l h1 h2
    rcases m with _ | m
    · omega
    · simp only [gnt_fuel.eq_2]
      rcases hc : l.current_char with _ | c
      · rfl
      · dsimp only
        by_cases hs : pyIsSpace c = true
        · rw [if_pos hs, if_pos hs]
          have hlt := skip_whitespace_fm_lt l c hc hs
          exact ih m l.skip_whitespace (by omega) (by omega)
        · rw [if_neg hs, if_neg hs]
          by_cases hb : c = lbrace
          · rw [if_pos hb, if_pos hb]
            rcases hsc : l.skip_comments with e2 | l2
            · rfl
            · have hlt := skip_comments_ok_fm_lt l l2 hsc
              exact ih m l2 (by omega) (by omega)
          · rw [if_neg hb, if_neg hb]

/-- get_next_token satisfies the recurrence of the Python dispatch loop:
skip whitespace and loop, skip a comment and loop, otherwise return via
op_dispatch, and return the EOF token once no character remains. -/
theorem get_next_token_eq (l : Lexer) :
    l.get_next_token =
      match l.current_char with
      | none => .ok (⟨.EOF, .noneVal, 0, 0⟩, l)
      | some c =>
        if pyIsSpace c then l.skip_whitespace.get_next_token
        else if c = lbrace then
          match l.skip_comments with
          | .error e => .error e
          | .ok l2 => l2.get_next_token
        else op_dispatch l c := by
  unfold Lexer.get_next_token
  rw [gnt_fuel.eq_2]
  rcases hc : l.current_char with _ | c
  · rfl
  · dsimp only
    by_cases hs : pyIsSpace c = true
    · rw [if_pos hs, if_pos hs]
      have hlt := skip_whitespace_fm_lt l c hc hs
      exact gnt_fuel_irrel _ _ _ (by omega) (by omega)
    · rw [if_neg hs, if_neg hs]
      by_cases hb : c = lbrace
      · rw [if_pos hb, if_pos hb]
        rcases hsc : l.skip_comments with e2 | l2
        · rfl
        · have hlt := skip_comments_ok_fm_lt l l2 hsc
          exact gnt_fuel_irrel _ _ _ (by omega) (by omega)
      · rw [if_neg hb, if_neg hb]

/-- Advancing from any state already past the end of the text only
increments pos and caches the sentinel; every other field is kept. -/
theorem advance_past_end (l : Lexer) (h2 : l.text.length ≤ l.pos) :
    l.advance = { l with pos := l.pos + 1, current_char := none } := by
  simp only [Lexer.advance]
  rw [if_pos (show l.text.length ≤ l.pos + 1 by omega)]
  rw [if_neg (show ¬ ((none : Option Char) = some '\n') by simp)]

/-- The state of Lexer(text) for a text of a newline then the letter a. -/
def lexNLa : Lexer := ⟨['\n', 'a'], 0, some '\n', 1, 1⟩

/-- The state of Lexer(text) for the two-letter text ab. -/
def lexAB : Lexer := ⟨['a', 'b'], 0, some 'a', 1, 1⟩

/-- The state of Lexer(text) for the letter a, a newline, the letter b. -/
def lexANB : Lexer := ⟨['a', '\n', 'b'], 0, some 'a', 1, 1⟩

/-- C1: the constructor evaluates text[0], so for the empty input it
raises an IndexError instead of yielding an END_OF_INPUT token; the
claimed behaviour never happens because no scanner state is built. -/
theorem empty_input_constructor_raises_index_error :
    Lexer.init [] = .error ⟨.indexError, "string index out of range"⟩ ∧
    scanNth [] 0 = .error ⟨.indexError, "string index out of range"⟩ := by
  decide

/-- C2: advance tests the NEW current character for a newline, not the
consumed one, and never increments the column.  Consuming the newline of
a text starting with a newline leaves lineno at 1; consuming the letter
a of the text ab leaves column at 1 instead of 2; consuming the letter a
of a text whose second character is a newline already bumps lineno to 2. -/
theorem advance_ignores_consumed_char_and_never_increments_column :
    Lexer.init ['\n', 'a'] = .ok lexNLa ∧
    lexNLa.advance.pos = 1 ∧ lexNLa.advance.lineno = 1 ∧ lexNLa.advance.column = 1 ∧
    Lexer.init ['a', 'b'] = .ok lexAB ∧
    lexAB.advance.pos = 1 ∧ lexAB.advance.column = 1 ∧ lexAB.advance.lineno = 1 ∧
    Lexer.init ['a', '\n', 'b'] = .ok lexANB ∧
    lexANB.advance.pos = 1 ∧ lexANB.advance.lineno = 2 ∧ lexANB.advance.column = 1 := by
  decide

/-- C3: on the input of the digit 3 followed by a final dot, number
reaches the dot, peeks None and evaluates None.isdigit(), so the first
call raises an AttributeError instead of returning the integer token 3;
when another character follows the dot the guard works and the claimed
integer-then-DOT behaviour appears. -/
theorem trailing_dot_raises_attribute_error :
    scanNth ['3', '.'] 0 = .error ⟨.attributeError, attrMsg⟩ ∧
    scanNth ['3', '.', 'x'] 0 = .ok ⟨.INTEGER_CONST, .intVal 3, 1, 1⟩ ∧
    scanNth ['3', '.', 'x'] 1 = .ok ⟨.DOT, .tyVal .DOT, 1, 1⟩ := by
  decide

/-- C4: identifier accumulates with the builtin str.isalpha, which
rejects digits and underscores, so the input x1_y produces an IDENT
token of value x only, then an integer token 1, then empty IDENT tokens
forever at the underscore: not a single token of value x1_y. -/
theorem identifier_stops_at_nonletter :
    scanNth ['x', '1', '_', 'y'] 0 = .ok ⟨.IDENT, .strVal "x", 1, 1⟩ ∧
    scanNth ['x', '1', '_', 'y'] 1 = .ok ⟨.INTEGER_CONST, .intVal 1, 1, 1⟩ ∧
    scanNth ['x', '1', '_', 'y'] 2 = .ok ⟨.IDENT, .strVal "", 1, 1⟩ ∧
    scanNth ['x', '1', '_', 'y'] 3 = .ok ⟨.IDENT, .strVal "", 1, 1⟩ ∧
    Value.strVal "x" ≠ Value.strVal "x1_y" := by
  decide

/-- C5: on an illegal character, and at end of input inside a comment,
the scanner raises with exactly the claimed message format, but the
exception is the builtin Exception, not the LexerError class the module
defines: Lexer.error calls raise Exception(s). -/
theorem lex_errors_raise_builtin_exception_with_formatted_message :
    scanNth ['@'] 0 =
      .error ⟨.exceptionClass,
        "Lexer error on " ++ squote ++ "@" ++ squote ++ " line: 1 column: 1"⟩ ∧
    scanNth [lbrace, 'x'] 0 =
      .error ⟨.exceptionClass,
        "Lexer error on " ++ squote ++ "None" ++ squote ++ " line: 1 column: 1"⟩ ∧
    ExnClass.exceptionClass ≠ ExnClass.lexerError := by
  decide

/-- C6 counterexample: from the state reached by Lexer(a) after one
advance (already past end of input, sentinel cached), one further
advance leaves the sentinel in place but pushes pos to 2, which exceeds
the text length 1: pos does not stay within the length of the text. -/
theorem advance_past_end_increments_pos_counterexample :
    Lexer.init ['a'] = .ok ⟨['a'], 0, some 'a', 1, 1⟩ ∧
    (⟨['a'], 0, some 'a', 1, 1⟩ : Lexer).advance = ⟨['a'], 1, none, 1, 1⟩ ∧
    (⟨['a'], 1, none, 1, 1⟩ : Lexer).advance.current_char = none ∧
    ¬ ((⟨['a'], 1, none, 1, 1⟩ : Lexer).advance.pos ≤
        (⟨['a'], 1, none, 1, 1⟩ : Lexer).text.length) := by
  decide

/-- C6 (amended): once the cursor is past end-of-input (the current
character is the sentinel and pos has reached the text length), further
advance() calls are safe: the current character stays at the sentinel,
line and column and text are untouched and the text is never indexed,
but pos keeps incrementing by one per call, so it does exceed the length
of the text rather than staying within it. -/
theorem advance_past_end_keeps_sentinel_amended (l : Lexer)
    (h1 : l.current_char = none) (h2 : l.text.length ≤ l.pos) (n : Nat) :
    (Lexer.advance^[n] l).current_char = none ∧
    (Lexer.advance^[n] l).pos = l.pos + n ∧
    (Lexer.advance^[n] l).lineno = l.lineno ∧
    (Lexer.advance^[n] l).column = l.column ∧
    (Lexer.advance^[n] l).text = l.text := by
  induction n with
  | zero => exact ⟨h1, rfl, rfl, rfl, rfl⟩
  | succ n ih =>
    obtain ⟨ih1, ih2, ih3, ih4, ih5⟩ := ih
    rw [Function.iterate_succ_apply']
    have hlen : (Lexer.advance^[n] l).text.length ≤ (Lexer.advance^[n] l).pos := by
      rw [ih5, ih2]
      omega
    rw [advance_past_end _ hlen]
    refine ⟨rfl, ?_, ih3, ih4, ih5⟩
    show (Lexer.advance^[n] l).pos + 1 = l.pos + (n + 1)
    rw [ih2]
    omega

/-- Witness for the amended C6 at the past-end state of Lexer(a) after
one advance, with two further advances. -/
theorem advance_past_end_keeps_sentinel_amended_witness :
    (Lexer.advance^[2] ⟨['a'], 1, none, 1, 1⟩).current_char = none ∧
    (Lexer.advance^[2] ⟨['a'], 1, none, 1, 1⟩).pos = 3 ∧
    (Lexer.advance^[2] ⟨['a'], 1, none, 1, 1⟩).lineno = 1 ∧
    (Lexer.advance^[2] ⟨['a'], 1, none, 1, 1⟩).column = 1 ∧
    (Lexer.advance^[2] ⟨['a'], 1, none, 1, 1⟩).text = ['a'] :=
  advance_past_end_keeps_sentinel_amended ⟨['a'], 1, none, 1, 1⟩ rfl (by decide) 2

/-- C7: scanning does not always terminate: on the one-character input
of an underscore every call of get_next_token returns the same empty
IDENT token without advancing, so neither END_OF_INPUT nor an error is
ever reached, however many calls are made. -/
theorem underscore_input_never_reaches_eof :
    Lexer.init ['_'] = .ok ⟨['_'], 0, some '_', 1, 1⟩ ∧
    ∀ n : Nat, nth_token ⟨['_'], 0, some '_', 1, 1⟩ n =
      .ok (⟨.IDENT, .strVal "", 1, 1⟩, ⟨['_'], 0, some '_', 1, 1⟩) :=
  ⟨by decide, fun n => underscore_nth ⟨['_'], 0, some '_', 1, 1⟩ rfl n⟩

/-- C8: once get_next_token has returned an END_OF_INPUT token, every
subsequent call returns the END_OF_INPUT token again, raising no error
and leaving the scanner state untouched. -/
theorem eof_token_is_absorbing (l : Lexer) (t : Token) (l' : Lexer)
    (h : l.get_next_token = .ok (t, l')) (ht : t.type = .EOF) (n : Nat) :
    nth_token l' n = .ok (⟨.EOF, .noneVal, 0, 0⟩, l') :=
  nth_token_eof_stable l' (get_next_token_ok_eof l t l' h ht) n

/-- Witness for C8 at the state of Lexer(+) after its PLUS token. -/
theorem eof_token_is_absorbing_witness :
    nth_token ⟨['+'], 1, none, 1, 1⟩ 3 =
      .ok (⟨.EOF, .noneVal, 0, 0⟩, ⟨['+'], 1, none, 1, 1⟩) :=
  eof_token_is_absorbing ⟨['+'], 1, none, 1, 1⟩ ⟨.EOF, .noneVal, 0, 0⟩
    ⟨['+'], 1, none, 1, 1⟩ (by decide) rfl 3

/-- C9: keyword lookup is case-sensitive exact match: every string other
than the eight exact uppercase spellings maps to IDENT, each keyword
input scans to its keyword kind, and the other casings Begin and begin
scan to plain identifiers. -/
theorem keyword_lookup_is_case_sensitive_exact :
    (∀ s : String, s ≠ "PROGRAM" → s ≠ "INTEGER" → s ≠ "REAL" → s ≠ "DIV" →
      s ≠ "VAR" → s ≠ "PROCEDURE" → s ≠ "BEGIN" → s ≠ "END" →
      reserved_keywords s = .IDENT) ∧
    scanNth ( "PROGRAM".toList) 0 = .ok ⟨.PROGRAM, .strVal "PROGRAM", 1, 1⟩ ∧
    scanNth ( "VAR".toList) 0 = .ok ⟨.VAR, .strVal "VAR", 1, 1⟩ ∧
    scanNth ( "BEGIN".toList) 0 = .ok ⟨.BEGIN, .strVal "BEGIN", 1, 1⟩ ∧
    scanNth ( "END".toList) 0 = .ok ⟨.END, .strVal "END", 1, 1⟩ ∧
    scanNth ( "PROCEDURE".toList) 0 = .ok ⟨.PROCEDURE, .strVal "PROCEDURE", 1, 1⟩ ∧
    scanNth ( "INTEGER".toList) 0 = .ok ⟨.INTEGER, .strVal "INTEGER", 1, 1⟩ ∧
    scanNth ( "REAL".toList) 0 = .ok ⟨.REAL, .strVal "REAL", 1, 1⟩ ∧
    scanNth ( "DIV".toList) 0 = .ok ⟨.INTEGER_DIV, .strVal "DIV", 1, 1⟩ ∧
    scanNth ( "Begin".toList) 0 = .ok ⟨.IDENT, .strVal "Begin", 1, 1⟩ ∧
    scanNth ( "begin".toList) 0 = .ok ⟨.IDENT, .strVal "begin", 1, 1⟩ := by
  refine ⟨?_, by decide, by decide, by decide, by decide, by decide, by decide,
    by decide, by decide, by decide, by decide⟩
  intro s h1 h2 h3 h4 h5 h6 h7 h8
  unfold reserved_keywords
  rw [if_neg h1, if_neg h2, if_neg h3, if_neg h4, if_neg h5, if_neg h6, if_neg h7,
    if_neg h8]

/-- Witness for the universal part of C9 at the casing Begin. -/
theorem keyword_lookup_is_case_sensitive_exact_witness :
    reserved_keywords "Begin" = .IDENT :=
  keyword_lookup_is_case_sensitive_exact.1 "Begin" (by decide) (by decide) (by decide)
    (by decide) (by decide) (by decide) (by decide) (by decide)

/-- C10: from any scanner state whose current character is an
underscore, get_next_token returns an IDENT token with the empty string
as value and does not advance, so every subsequent call returns the same
empty IDENT token and END_OF_INPUT is never reached. -/
theorem underscore_yields_empty_ident_forever (l : Lexer)
    (h : l.current_char = some '_') (n : Nat) :
    nth_token l n = .ok (⟨.IDENT, .strVal "", l.lineno, l.column⟩, l) :=
  underscore_nth l h n

/-- Witness for C10 at the initial state of the one-underscore input. -/
theorem underscore_yields_empty_ident_forever_witness :
    nth_token ⟨['_'], 0, some '_', 1, 1⟩ 2 =
      .ok (⟨.IDENT, .strVal "", 1, 1⟩, ⟨['_'], 0, some '_', 1, 1⟩) :=
  underscore_yields_empty_ident_forever ⟨['_'], 0, some '_', 1, 1⟩ rfl 2
